import Mathlib

/-!
# A verification development for the dq_copilot analysis pipeline

Shallow embedding of the four in-scope components of the repository
(`src/dq_copilot/agents/`): `profiler.py`, `anomaly_detector.py`,
`test_generator.py` and `yaml_generator.py`, together with proofs of the
specified properties.

Modelling conventions:
* Python floats are modelled exactly as rationals (`ℚ`).
* A pandas cell is `Option CellVal`; `none` is the null marker (`NaN`/`None`).
* Dictionaries keyed by strings become structures; optional keys become
  `Option` fields.
* The generative-backend call is abstracted by its observable outcome
  (raised / non-object response, or a parsed JSON object with the relevant
  entries present or absent); everything after the call is translated from
  the code.
-/

/-- A non-null cell value of a source table: numeric (ints and floats are
modelled exactly as rationals), text, or boolean. -/
inductive CellVal where
  | num (q : ℚ)
  | str (s : String)
  | boolv (b : Bool)
  deriving DecidableEq, Repr

/-- A source column: its name, its pandas dtype string, whether
`pd.api.types.is_numeric_dtype` holds of that dtype, and the cells
(`none` is the null marker). -/
structure SrcColumn where
  name : String
  dtype : String
  numeric : Bool
  cells : List (Option CellVal)
  deriving DecidableEq, Repr

/-- A source table (the loaded `pd.DataFrame`): `nrows = len(df)`, and the
columns in source order. -/
structure SrcTable where
  name : String
  nrows : Nat
  cols : List SrcColumn
  deriving DecidableEq, Repr

/-- A cell admissible in a numeric-dtype pandas series: null or numeric. -/
def numOk : Option CellVal → Bool
  | some (CellVal.num _) => true
  | some (CellVal.str _) => false
  | some (CellVal.boolv _) => false
  | none => true

/-- Well-formedness of a source table: every column has one cell per table
row (pandas columns all share `len(df)`), and a numeric-dtype column holds
only numeric or null cells. -/
def WFTable (t : SrcTable) : Prop :=
  ∀ c ∈ t.cols, c.cells.length = t.nrows ∧
    (c.numeric = true → ∀ v ∈ c.cells, numOk v = true)

instance (t : SrcTable) : Decidable (WFTable t) := by
  unfold WFTable; infer_instance

/-! ## First-seen deduplication

`pd.Series.unique` and `pd.Series.nunique` keep each value's first
occurrence, in row order.  `dedupFS` implements exactly that,
via an accumulator of already-seen values. -/

/-- Tail worker for `dedupFS`: keep each element not yet seen, in order. -/
def dedupFSAux [DecidableEq α] (seen : List α) : List α → List α
  | [] => []
  | x :: xs => if x ∈ seen then dedupFSAux seen xs else x :: dedupFSAux (x :: seen) xs

/-- The distinct elements of `l`, each at its first occurrence, in order. -/
def dedupFS [DecidableEq α] (l : List α) : List α :=
  dedupFSAux [] l

/-! ## Profiler (`profiler.py`) -/

/-- `series.isna().sum()`: the number of null cells. -/
def nullCount (cells : List (Option CellVal)) : Nat :=
  (cells.filter Option.isNone).length

/-- `series.dropna()`: the non-null cells, in row order. -/
def nonNullVals (cells : List (Option CellVal)) : List CellVal :=
  cells.filterMap id

/-- The numeric values of the column, in row order.  On a well-formed
numeric column this is exactly `series.dropna()`. -/
def numVals (cells : List (Option CellVal)) : List ℚ :=
  cells.filterMap fun c =>
    match c with
    | some (CellVal.num q) => some q
    | _ => none

/-- `non_null.min()` (0 on the empty list, unreachable under the guard). -/
def listMin : List ℚ → ℚ
  | [] => 0
  | x :: xs => xs.foldl min x

/-- `non_null.max()` (0 on the empty list, unreachable under the guard). -/
def listMax : List ℚ → ℚ
  | [] => 0
  | x :: xs => xs.foldl max x

/-- `non_null.mean()`: the sum divided by the length (`0/0 = 0` in `ℚ`,
unreachable under the guard). -/
def listMean (l : List ℚ) : ℚ :=
  l.sum / l.length

/-- Insertion into a sorted list of rationals. -/
def insertSorted (x : ℚ) : List ℚ → List ℚ
  | [] => [x]
  | y :: ys => if x ≤ y then x :: y :: ys else y :: insertSorted x ys

/-- Insertion sort of rationals, used to model the sort inside `median`. -/
def sortRats (l : List ℚ) : List ℚ :=
  l.foldr insertSorted []

/-- `non_null.median()`: middle element of the sorted values, or the mean of
the two middle elements for an even count. -/
def listMedian (l : List ℚ) : ℚ :=
  let s := sortRats l
  let n := s.length
  if n % 2 = 1 then s.getD (n / 2) 0
  else (s.getD (n / 2 - 1) 0 + s.getD (n / 2) 0) / 2

/-- The radicand of the sample standard deviation: `non_null.std()` is
`√(Σ (x - mean)² / (n - 1))` for `n > 1`; the code stores `0.0` when
`n ≤ 1`, which coincides with `√0`.  We keep the radicand, which is an
exact rational; theorems about `std` state it as `Real.sqrt` of this. -/
def listVar (l : List ℚ) : ℚ :=
  let m := listMean l
  if 1 < l.length then (l.map fun x => (x - m) ^ 2).sum / (l.length - 1) else 0

/-- The numeric block `{min, max, mean, median, std}` of a column profile.
`var` is the radicand of the stored `std` (see `listVar`). -/
structure NumericStats where
  min : ℚ
  max : ℚ
  mean : ℚ
  median : ℚ
  var : ℚ
  deriving DecidableEq, Repr

/-- The numeric block computed from the non-null values. -/
def mkStats (l : List ℚ) : NumericStats :=
  { min := listMin l
    max := listMax l
    mean := listMean l
    median := listMedian l
    var := listVar l }

/-- A column profile as produced by `ProfilerAgent._profile_column`.  The
flat optional dict entries `min/max/mean/median/std` become the optional
`numeric_block`. -/
structure ColumnProfile where
  name : String
  dtype : String
  null_count : Nat
  null_pct : ℚ
  distinct_count : Nat
  distinct_pct : ℚ
  numeric_block : Option NumericStats
  example_values : List CellVal
  deriving DecidableEq, Repr

/-- A table profile as produced by `ProfilerAgent.profile`. -/
structure TableProfile where
  table_name : String
  row_count : Nat
  column_count : Nat
  columns : List ColumnProfile
  deriving DecidableEq, Repr

/-- `ProfilerAgent._profile_column`, translated line by line:
null count and percentage, distinct count and percentage
(`series.nunique()` excludes nulls), the numeric block guarded by
`is_numeric_dtype` and a non-empty `dropna()`, and up to five
first-seen distinct non-null example values. -/
def profile_column (c : SrcColumn) (total_rows : Nat) : ColumnProfile :=
  let nn := nonNullVals c.cells
  { name := c.name
    dtype := c.dtype
    null_count := nullCount c.cells
    null_pct := if 0 < total_rows then (nullCount c.cells : ℚ) / total_rows else 0
    distinct_count := (dedupFS nn).length
    distinct_pct := if 0 < total_rows then ((dedupFS nn).length : ℚ) / total_rows else 0
    numeric_block :=
      if c.numeric = true ∧ 0 < nn.length then some (mkStats (numVals c.cells)) else none
    example_values := (dedupFS nn).take 5 }

/-- `ProfilerAgent.profile`: table-level counts plus one `ColumnProfile`
per source column, in source column order. -/
def profile (t : SrcTable) : TableProfile :=
  { table_name := t.name
    row_count := t.nrows
    column_count := t.cols.length
    columns := t.cols.map fun c => profile_column c t.nrows }

/-! ## Anomaly detector (`anomaly_detector.py`) -/

/-- `str.lower` restricted to ASCII letters, which is all the heuristics'
indicator substrings use. -/
def charLower (c : Char) : Char :=
  if 65 ≤ c.toNat ∧ c.toNat ≤ 90 then Char.ofNat (c.toNat + 32) else c

/-- `col_name.lower()` as a character list. -/
def lowerChars (s : String) : List Char :=
  s.data.map charLower

/-- `needle == l[i:i+len(needle)]` for some `i`: does `sub` occur as a
contiguous run inside `l`?  Models Python's `in` on strings. -/
def listHasSub [DecidableEq α] (sub : List α) : List α → Bool
  | [] => sub.isEmpty
  | x :: xs => sub.isPrefixOf (x :: xs) || listHasSub sub xs

/-- `AnomalyDetectorAgent._is_id_column`: the lowercased name contains one
of the indicator substrings, or equals `"id"`. -/
def is_id_column (col_name : String) : Bool :=
  let col_lower := lowerChars col_name
  (["_id", "id_", "identifier", "key"].any fun ind => listHasSub ind.data col_lower)
    || col_lower == "id".data

/-- `AnomalyDetectorAgent._is_amount_or_count_column`: the lowercased name
contains one of the amount/count indicator substrings. -/
def is_amount_or_count_column (col_name : String) : Bool :=
  let col_lower := lowerChars col_name
  ["amount", "price", "cost", "total", "sum",
   "count", "quantity", "qty", "number", "num"].any
    fun ind => listHasSub ind.data col_lower

/-- The constructor arguments of `AnomalyDetectorAgent.__init__`, with the
code's defaults.  The free-text fields of an emitted issue (details,
justification, impact, action, example) are fixed templates instantiated
from the same inputs; the claims never mention them and they are omitted
from the `Issue` model. -/
structure DetectorCfg where
  high_null_threshold : ℚ := 3 / 10
  constant_threshold : Nat := 1
  id_uniqueness_threshold : ℚ := 1
  deriving DecidableEq, Repr

/-- The default detector configuration. -/
def defaultCfg : DetectorCfg := {}

/-- A detected issue (the claim-relevant fields of the issue dict). -/
structure Issue where
  column : String
  issue_type : String
  severity : String
  priority : String
  value : ℚ
  deriving DecidableEq, Repr

/-- The `high_null_rate` issue appended for a column. -/
def highNullIssue (col : ColumnProfile) : Issue :=
  { column := col.name, issue_type := "high_null_rate", severity := "warning",
    priority := "HIGH", value := col.null_pct }

/-- The `non_unique_id` issue appended for a column. -/
def nonUniqueIdIssue (col : ColumnProfile) : Issue :=
  { column := col.name, issue_type := "non_unique_id", severity := "error",
    priority := "CRITICAL", value := col.distinct_pct }

/-- The `constant_column` issue appended for a column. -/
def constantColumnIssue (col : ColumnProfile) : Issue :=
  { column := col.name, issue_type := "constant_column", severity := "info",
    priority := "LOW", value := (col.distinct_count : ℚ) }

/-- The `negative_values` issue appended for a column with numeric block `s`. -/
def negativeValuesIssue (col : ColumnProfile) (s : NumericStats) : Issue :=
  { column := col.name, issue_type := "negative_values", severity := "warning",
    priority := "HIGH", value := s.min }

/-- The body of the `for col in profile.get("columns", [])` loop of
`AnomalyDetectorAgent._detect_fallback`: four conditional appends, in
program order.  The check `"min" in col` is block presence. -/
def detect_step (cfg : DetectorCfg) (issues : List Issue) (col : ColumnProfile) : List Issue :=
  let issues :=
    if cfg.high_null_threshold < col.null_pct then issues ++ [highNullIssue col] else issues
  let issues :=
    if is_id_column col.name then
      if col.distinct_pct < cfg.id_uniqueness_threshold then issues ++ [nonUniqueIdIssue col]
      else issues
    else issues
  let issues :=
    if col.distinct_count ≤ cfg.constant_threshold then issues ++ [constantColumnIssue col]
    else issues
  let issues :=
    if is_amount_or_count_column col.name then
      match col.numeric_block with
      | some s => if s.min < 0 then issues ++ [negativeValuesIssue col s] else issues
      | none => issues
    else issues
  issues

/-- `AnomalyDetectorAgent._detect_fallback`: start from `issues = []` and
run the loop body over the profile's columns in order. -/
def detect_fallback (cfg : DetectorCfg) (p : TableProfile) : List Issue :=
  p.columns.foldl (detect_step cfg) []

/-- The observable outcome of the generative call inside
`AnomalyDetectorAgent._detect_with_llm`, as seen after
`json.loads(response...content)`:
* `err` — the call raised, or the response did not parse as a JSON object
  (both raise, and `detect` catches any exception);
* `parsed issues?` — a JSON object was obtained; `issues?` is the value of
  its `"issues"` entry when present (assumed to be a list of issue dicts),
  and `none` when the object lacks that entry. -/
inductive LLMDetect where
  | err
  | parsed (issues? : Option (List Issue))
  deriving DecidableEq, Repr

/-- `AnomalyDetectorAgent.detect`: when a client is configured
(`backend ≠ none`), try the generative path and catch any exception by
falling back; `result.get("issues", [])` returns the entry or the empty
list.  Without a client, go straight to the fallback. -/
def detect (cfg : DetectorCfg) (backend : Option LLMDetect) (p : TableProfile) : List Issue :=
  match backend with
  | none => detect_fallback cfg p
  | some LLMDetect.err => detect_fallback cfg p
  | some (LLMDetect.parsed issues?) => issues?.getD []

/-! ## Test generator (`test_generator.py`) -/

/-- A config mapping; option values are opaque to every claim, so they are
modelled as strings. -/
abbrev ConfigMap := List (String × String)

/-- A validated test suggestion (`{column, test_type, config}`). -/
structure TestSpec where
  column : String
  test_type : String
  config : ConfigMap
  deriving DecidableEq, Repr

/-- A raw test candidate from the generative path: any of the three
entries may be absent. -/
structure RawTest where
  column : Option String
  test_type : Option String
  config : Option ConfigMap
  deriving DecidableEq, Repr

/-- The `valid_test_types` set of `TestGeneratorAgent._validate_tests`. -/
def valid_test_types : List String :=
  ["not_null", "unique", "accepted_values", "relationships",
   "expect_column_values_to_be_between", "expect_column_values_to_match_regex",
   "expect_column_mean_to_be_between"]

/-- The body of the `for test in tests` loop of
`TestGeneratorAgent._validate_tests`: the three `continue` guards in
program order, then the `config` default, then the append. -/
def validate_step (p : TableProfile) (validated : List TestSpec) (t : RawTest) :
    List TestSpec :=
  match t.column, t.test_type with
  | some c, some ty =>
    if c ∈ p.columns.map ColumnProfile.name then
      if ty ∈ valid_test_types then
        validated ++ [{ column := c, test_type := ty, config := t.config.getD [] }]
      else validated
    else validated
  | _, _ => validated

/-- `TestGeneratorAgent._validate_tests`. -/
def validate_tests (tests : List RawTest) (p : TableProfile) : List TestSpec :=
  tests.foldl (validate_step p) []

/-- The result shape of `TestGeneratorAgent.generate`. -/
structure GenResult where
  description : String
  tests : List TestSpec
  deriving DecidableEq, Repr

/-- The body of the first loop of `TestGeneratorAgent._generate_fallback`
(over the issues; the `high_null_rate` branch is an explicit `pass`). -/
def gen_issue_step (tests : List TestSpec) (issue : Issue) : List TestSpec :=
  if issue.issue_type == "non_unique_id" then
    tests ++ [{ column := issue.column, test_type := "unique", config := [] }]
  else if issue.issue_type == "high_null_rate" then tests
  else tests

/-- The body of the second loop of `TestGeneratorAgent._generate_fallback`
(over the profile columns). -/
def gen_col_step (tests : List TestSpec) (col : ColumnProfile) : List TestSpec :=
  if col.null_pct < 1 / 20 then
    tests ++ [{ column := col.name, test_type := "not_null", config := [] }]
  else tests

/-- `TestGeneratorAgent._generate_fallback`: the issue pass, then the
low-null column pass, then the fixed description. -/
def generate_fallback (p : TableProfile) (issues : List Issue) : GenResult :=
  { description := "Rule-based test suggestions (LLM unavailable)"
    tests := p.columns.foldl gen_col_step (issues.foldl gen_issue_step []) }

/-- The observable outcome of the generative call inside
`TestGeneratorAgent._generate_with_llm` (same conventions as `LLMDetect`):
`parsed desc? tests?` records the presence of the `"description"` and
`"tests"` entries of the parsed JSON object. -/
inductive LLMGen where
  | err
  | parsed (desc? : Option String) (tests? : Option (List RawTest))
  deriving DecidableEq, Repr

/-- `TestGeneratorAgent.generate`: with a configured client, try the
generative path and catch any exception by falling back; on a parsed
object, `result.get("tests", [])` is validated and
`result.get("description", ...)` is defaulted. -/
def generate (backend : Option LLMGen) (p : TableProfile) (issues : List Issue) :
    GenResult :=
  match backend with
  | none => generate_fallback p issues
  | some LLMGen.err => generate_fallback p issues
  | some (LLMGen.parsed desc? tests?) =>
    { description := desc?.getD "LLM-generated test suggestions"
      tests := validate_tests (tests?.getD []) p }

/-! ## YAML serializer (`yaml_generator.py`) -/

/-- A rendered test inside the document: a bare `test_type` string when the
config is empty, else the single-entry mapping `{test_type: config}`. -/
inductive YamlTest where
  | bare (test_type : String)
  | withConfig (test_type : String) (config : ConfigMap)
  deriving DecidableEq, Repr

/-- `YamlGenerator._format_test`. -/
def format_test (t : TestSpec) : YamlTest :=
  if t.config = [] then YamlTest.bare t.test_type
  else YamlTest.withConfig t.test_type t.config

/-- One `{name, tests}` column group of the document. -/
structure ColumnGroup where
  name : String
  tests : List YamlTest
  deriving DecidableEq, Repr

/-- One `{name, columns}` model entry of the document. -/
structure DbtModel where
  name : String
  columns : List ColumnGroup
  deriving DecidableEq, Repr

/-- The document written by `YamlGenerator.generate` (before textual
rendering): `{version: 2, models: [...]}`. -/
structure DbtYaml where
  version : Nat
  models : List DbtModel
  deriving DecidableEq, Repr

/-- One step of building `tests_by_column`: a Python dict preserves
insertion order, so an absent column name is appended at the end and a
present one has the test appended to its group. -/
def insertTest (m : List (String × List TestSpec)) (t : TestSpec) :
    List (String × List TestSpec) :=
  if m.any fun kv => kv.1 == t.column then
    m.map fun kv => if kv.1 == t.column then (kv.1, kv.2 ++ [t]) else kv
  else m ++ [(t.column, [t])]

/-- The `tests_by_column` dict of `YamlGenerator.generate`, as an
insertion-ordered association list. -/
def tests_by_column (tests : List TestSpec) : List (String × List TestSpec) :=
  tests.foldl insertTest []

/-- `YamlGenerator.generate`, up to the document value handed to
`yaml.dump` (the file write itself is out of the model): group the tests
by column, render each test, wrap in the fixed document shape. -/
def serialize (table_name : String) (tests : List TestSpec) : DbtYaml :=
  { version := 2
    models := [{ name := table_name
                 columns := (tests_by_column tests).map fun kv =>
                   { name := kv.1, tests := kv.2.map format_test } }] }

/-! ## Derived definitions used by the specifications

The per-item "blocks" below restate each loop body's contribution as a
standalone list/option, so that the loops can be proved equal to
`flatMap`/`filterMap` over them. -/

/-- The issues the fallback rule engine emits for one column, in rule-check
order: high null rate, then non-unique id, then constant column, then
negative values. -/
def detectBlock (cfg : DetectorCfg) (col : ColumnProfile) : List Issue :=
  (if cfg.high_null_threshold < col.null_pct then [highNullIssue col] else []) ++
  (if is_id_column col.name = true then
      if col.distinct_pct < cfg.id_uniqueness_threshold then [nonUniqueIdIssue col] else []
    else []) ++
  (if col.distinct_count ≤ cfg.constant_threshold then [constantColumnIssue col] else []) ++
  (if is_amount_or_count_column col.name = true then
      match col.numeric_block with
      | some s => if s.min < 0 then [negativeValuesIssue col s] else []
      | none => []
    else [])

/-- The tests emitted by the issue pass of the fallback generator for one
issue. -/
def genIssueBlock (issue : Issue) : List TestSpec :=
  if issue.issue_type == "non_unique_id" then
    [{ column := issue.column, test_type := "unique", config := [] }]
  else []

/-- The tests emitted by the low-null-column pass of the fallback generator
for one column. -/
def genColBlock (col : ColumnProfile) : List TestSpec :=
  if col.null_pct < 1 / 20 then
    [{ column := col.name, test_type := "not_null", config := [] }]
  else []

/-- The decision of the validation filter on a single candidate: `none` when
it is dropped, otherwise the validated test (with the `config` default
applied). -/
def keepCand (p : TableProfile) (t : RawTest) : Option TestSpec :=
  match t.column, t.test_type with
  | some c, some ty =>
    if c ∈ p.columns.map ColumnProfile.name ∧ ty ∈ valid_test_types then
      some { column := c, test_type := ty, config := t.config.getD [] }
    else none
  | _, _ => none

/-! ## Concrete instances used by witnesses and counterexamples -/

/-- A five-row `user_id` column that is 80 percent distinct. -/
def colUserId : SrcColumn :=
  { name := "user_id", dtype := "object", numeric := false,
    cells := [some (CellVal.num 1), some (CellVal.num 2), some (CellVal.num 3),
              some (CellVal.num 4), some (CellVal.num 4)] }

/-- A five-row table whose only column is `colUserId`. -/
def tUserId : SrcTable := { name := "users", nrows := 5, cols := [colUserId] }

/-- A two-row numeric column holding the constant value 5. -/
def colConst5 : SrcColumn :=
  { name := "x", dtype := "float64", numeric := true,
    cells := [some (CellVal.num 5), some (CellVal.num 5)] }

/-- The table with the constant numeric column. -/
def tConst5 : SrcTable := { name := "t", nrows := 2, cols := [colConst5] }

/-- A two-row numeric column with two different values. -/
def colTwoVals : SrcColumn :=
  { name := "x", dtype := "float64", numeric := true,
    cells := [some (CellVal.num 5), some (CellVal.num 7)] }

/-- The table with the two-valued numeric column. -/
def tTwoVals : SrcTable := { name := "t", nrows := 2, cols := [colTwoVals] }

/-- A one-row column that is entirely null. -/
def colAllNull : SrcColumn :=
  { name := "c", dtype := "object", numeric := false, cells := [none] }

/-- The table with the all-null column. -/
def tAllNull : SrcTable := { name := "t", nrows := 1, cols := [colAllNull] }

/-- A three-row column: a value, a null, and a repeat of the value. -/
def colMixed : SrcColumn :=
  { name := "m", dtype := "object", numeric := false,
    cells := [some (CellVal.num 1), none, some (CellVal.num 1)] }

/-- The table with the mixed column. -/
def tMixed : SrcTable := { name := "t", nrows := 3, cols := [colMixed] }

/-- A literal profile of one constant, never-null column; deterministic
detection on it yields a `constant_column` issue. -/
def cpConst : ColumnProfile :=
  { name := "c", dtype := "int64", null_count := 0, null_pct := 0,
    distinct_count := 1, distinct_pct := 1, numeric_block := none,
    example_values := [CellVal.num 7] }

/-- The single-column profile around `cpConst`. -/
def pConst : TableProfile :=
  { table_name := "t", row_count := 1, column_count := 1, columns := [cpConst] }

/-- A literal single-column profile with `null_pct = 0.02`. -/
def cpLowNull : ColumnProfile :=
  { name := "c", dtype := "int64", null_count := 1, null_pct := 1 / 50,
    distinct_count := 30, distinct_pct := 3 / 5, numeric_block := none,
    example_values := [CellVal.num 7] }

/-- The single-column profile around `cpLowNull`. -/
def pLowNull : TableProfile :=
  { table_name := "t", row_count := 50, column_count := 1, columns := [cpLowNull] }

/-- A raw generative candidate that passes every check of the filter. -/
def rawKeep : RawTest :=
  { column := some "c", test_type := some "not_null", config := none }

/-- A raw candidate naming a column absent from the profile. -/
def rawBadCol : RawTest :=
  { column := some "foo", test_type := some "not_null", config := some [] }

/-- A raw candidate with a test type outside the allowed set. -/
def rawBadType : RawTest :=
  { column := some "c", test_type := some "custom_sql", config := some [] }

/-- First column of the two-column profile for the ordering witness. -/
def cpOrdA : ColumnProfile :=
  { name := "a", dtype := "int64", null_count := 0, null_pct := 0,
    distinct_count := 2, distinct_pct := 1, numeric_block := none,
    example_values := [] }

/-- Second column of the two-column profile for the ordering witness. -/
def cpOrdB : ColumnProfile :=
  { name := "b", dtype := "int64", null_count := 0, null_pct := 0,
    distinct_count := 1, distinct_pct := 1 / 2, numeric_block := none,
    example_values := [] }

/-- The two-column profile for the ordering witness. -/
def pOrd : TableProfile :=
  { table_name := "t", row_count := 2, column_count := 2,
    columns := [cpOrdA, cpOrdB] }

/-- A `non_unique_id` issue on column `b` of `pOrd`. -/
def issueOrdB : Issue :=
  { column := "b", issue_type := "non_unique_id", severity := "error",
    priority := "CRITICAL", value := 1 / 2 }

/-! ## Helper lemmas: first-seen deduplication -/

theorem mem_dedupFSAux [DecidableEq α] {x : α} (seen l : List α) :
    x ∈ dedupFSAux seen l ↔ x ∈ l ∧ x ∉ seen := by
  induction l generalizing seen with
  | nil => simp [dedupFSAux]
  | cons y ys ih =>
    by_cases hy : y ∈ seen
    · simp only [dedupFSAux, if_pos hy, ih, List.mem_cons]
      constructor
      · rintro ⟨hx, hs⟩; exact ⟨Or.inr hx, hs⟩
      · rintro ⟨hx | hx, hs⟩
        · exact absurd (hx ▸ hy) hs
        · exact ⟨hx, hs⟩
    · by_cases hxy : x = y
      · subst hxy
        simp [dedupFSAux, if_neg hy, hy]
      · simp only [dedupFSAux, if_neg hy, List.mem_cons, ih, not_or, hxy,
          false_or]

theorem mem_dedupFS [DecidableEq α] {x : α} (l : List α) :
    x ∈ dedupFS l ↔ x ∈ l := by
  simp [dedupFS, mem_dedupFSAux]

theorem nodup_dedupFSAux [DecidableEq α] (seen l : List α) :
    (dedupFSAux seen l).Nodup := by
  induction l generalizing seen with
  | nil => simp [dedupFSAux]
  | cons y ys ih =>
    by_cases hy : y ∈ seen
    · simpa [dedupFSAux, if_pos hy] using ih seen
    · rw [dedupFSAux, if_neg hy, List.nodup_cons]
      refine ⟨fun hmem => ?_, ih (y :: seen)⟩
      exact ((mem_dedupFSAux _ _).1 hmem).2 (List.mem_cons_self _ _)

theorem nodup_dedupFS [DecidableEq α] (l : List α) : (dedupFS l).Nodup :=
  nodup_dedupFSAux [] l

theorem sublist_dedupFSAux [DecidableEq α] (seen l : List α) :
    (dedupFSAux seen l).Sublist l := by
  induction l generalizing seen with
  | nil => simp [dedupFSAux]
  | cons y ys ih =>
    by_cases hy : y ∈ seen
    · simpa [dedupFSAux, if_pos hy] using (ih seen).cons y
    · simpa [dedupFSAux, if_neg hy] using (ih (y :: seen)).cons₂ y

theorem sublist_dedupFS [DecidableEq α] (l : List α) : (dedupFS l).Sublist l :=
  sublist_dedupFSAux [] l

theorem length_dedupFS_le [DecidableEq α] (l : List α) :
    (dedupFS l).length ≤ l.length :=
  (sublist_dedupFS l).length_le

theorem toFinset_dedupFS [DecidableEq α] (l : List α) :
    (dedupFS l).toFinset = l.toFinset := by
  ext x; simp [mem_dedupFS]

theorem length_dedupFS_eq_card [DecidableEq α] (l : List α) :
    (dedupFS l).length = l.toFinset.card := by
  rw [← toFinset_dedupFS, List.toFinset_card_of_nodup (nodup_dedupFS l)]

theorem dedupFSAux_congr [DecidableEq α] {s₁ s₂ : List α}
    (h : ∀ z : α, z ∈ s₁ ↔ z ∈ s₂) (l : List α) :
    dedupFSAux s₁ l = dedupFSAux s₂ l := by
  induction l generalizing s₁ s₂ with
  | nil => rfl
  | cons y ys ih =>
    by_cases hy : y ∈ s₁
    · rw [dedupFSAux, if_pos hy, dedupFSAux, if_pos ((h y).1 hy)]
      exact ih h
    · rw [dedupFSAux, if_neg hy, dedupFSAux, if_neg (fun hc => hy ((h y).2 hc))]
      refine congrArg (y :: ·) (ih ?_)
      intro z; simp [h z]

theorem dedupFSAux_append [DecidableEq α] (seen a b : List α) :
    dedupFSAux seen (a ++ b) = dedupFSAux seen a ++ dedupFSAux (a ++ seen) b := by
  induction a generalizing seen with
  | nil => simp [dedupFSAux]
  | cons x xs ih =>
    by_cases hx : x ∈ seen
    · rw [List.cons_append, dedupFSAux, if_pos hx, dedupFSAux, if_pos hx, ih]
      refine congrArg _ (dedupFSAux_congr ?_ b)
      intro z
      simp only [List.mem_append, List.cons_append, List.mem_cons]
      constructor
      · rintro (hz | hz)
        · exact Or.inr (Or.inl hz)
        · exact Or.inr (Or.inr hz)
      · rintro (rfl | hz | hz)
        · exact Or.inr hx
        · exact Or.inl hz
        · exact Or.inr hz
    · rw [List.cons_append, dedupFSAux, if_neg hx, dedupFSAux, if_neg hx, ih,
        List.cons_append]
      refine congrArg _ (congrArg _ (dedupFSAux_congr ?_ b))
      intro z
      simp only [List.mem_append, List.cons_append, List.mem_cons]
      tauto

theorem dedupFS_append [DecidableEq α] (a b : List α) :
    dedupFS (a ++ b) = dedupFS a ++ dedupFSAux a b := by
  rw [dedupFS, dedupFSAux_append, dedupFS]
  exact congrArg _ (dedupFSAux_congr (by simp) b)

theorem dedupFS_snoc [DecidableEq α] (l : List α) (x : α) :
    dedupFS (l ++ [x]) = if x ∈ l then dedupFS l else dedupFS l ++ [x] := by
  rw [dedupFS_append]
  by_cases hx : x ∈ l
  · simp [dedupFSAux, hx]
  · simp [dedupFSAux, hx]

/-- The output of `dedupFSAux` is strictly increasing in the index of each
element's first occurrence in the traversed list: it lists values in
first-seen order. -/
theorem dedupFSAux_pairwise_indexOf [DecidableEq α] (seen l : List α) :
    (dedupFSAux seen l).Pairwise
      (fun x y => List.indexOf x l < List.indexOf y l) := by
  induction l generalizing seen with
  | nil => simp [dedupFSAux]
  | cons z zs ih =>
    by_cases hz : z ∈ seen
    · rw [dedupFSAux, if_pos hz]
      refine (ih seen).imp_of_mem ?_
      intro a b ha hb hab
      obtain ⟨haz, hans⟩ := (mem_dedupFSAux _ _).1 ha
      obtain ⟨hbz, hbns⟩ := (mem_dedupFSAux _ _).1 hb
      have hane : z ≠ a := fun h => hans (h ▸ hz)
      have hbne : z ≠ b := fun h => hbns (h ▸ hz)
      rw [List.indexOf_cons_ne _ hane, List.indexOf_cons_ne _ hbne]
      exact Nat.succ_lt_succ hab
    · rw [dedupFSAux, if_neg hz, List.pairwise_cons]
      constructor
      · intro y hy
        obtain ⟨hyz, hyns⟩ := (mem_dedupFSAux _ _).1 hy
        have hyne : z ≠ y := fun h => hyns (List.mem_cons.2 (Or.inl h.symm))
        rw [List.indexOf_cons_self, List.indexOf_cons_ne _ hyne]
        exact Nat.succ_pos _
      · refine (ih (z :: seen)).imp_of_mem ?_
        intro a b ha hb hab
        obtain ⟨haz, hans⟩ := (mem_dedupFSAux _ _).1 ha
        obtain ⟨hbz, hbns⟩ := (mem_dedupFSAux _ _).1 hb
        have hane : z ≠ a := fun h => hans (List.mem_cons.2 (Or.inl h.symm))
        have hbne : z ≠ b := fun h => hbns (List.mem_cons.2 (Or.inl h.symm))
        rw [List.indexOf_cons_ne _ hane, List.indexOf_cons_ne _ hbne]
        exact Nat.succ_lt_succ hab

/-- `dedupFS` lists the distinct values of `l` in strictly increasing order
of first occurrence. -/
theorem dedupFS_pairwise_indexOf [DecidableEq α] (l : List α) :
    (dedupFS l).Pairwise (fun x y => List.indexOf x l < List.indexOf y l) :=
  dedupFSAux_pairwise_indexOf [] l

/-! ## Helper lemmas: accumulate-by-append loops -/

/-- A loop whose body appends `block x` to the accumulator computes the
accumulator followed by the concatenation of the blocks, in order. -/
theorem foldl_append_block {α β : Type} {step : List β → α → List β}
    {block : α → List β} (hstep : ∀ acc x, step acc x = acc ++ block x) :
    ∀ (l : List α) (acc : List β), l.foldl step acc = acc ++ l.flatMap block := by
  intro l
  induction l with
  | nil => intro acc; simp
  | cons x xs ih =>
    intro acc
    rw [List.foldl_cons, hstep, ih, List.flatMap_cons, List.append_assoc]

/-! ## Helper lemmas: per-column issue block of the fallback detector -/

theorem detect_step_eq (cfg : DetectorCfg) (acc : List Issue) (col : ColumnProfile) :
    detect_step cfg acc col = acc ++ detectBlock cfg col := by
  unfold detect_step detectBlock
  cases hnb : col.numeric_block <;>
    simp only [hnb] <;> split_ifs <;> simp [List.append_assoc]

theorem detect_fallback_eq_flatMap (cfg : DetectorCfg) (p : TableProfile) :
    detect_fallback cfg p = p.columns.flatMap (detectBlock cfg) := by
  rw [detect_fallback, foldl_append_block (detect_step_eq cfg), List.nil_append]

theorem detectBlock_column (cfg : DetectorCfg) (col : ColumnProfile) :
    ∀ i ∈ detectBlock cfg col, i.column = col.name := by
  unfold detectBlock
  cases hnb : col.numeric_block <;> simp only [hnb] <;> split_ifs <;>
    simp [highNullIssue, nonUniqueIdIssue, constantColumnIssue,
      negativeValuesIssue]

/-! ## Helper lemmas: fallback test generation blocks -/

theorem gen_issue_step_eq (acc : List TestSpec) (issue : Issue) :
    gen_issue_step acc issue = acc ++ genIssueBlock issue := by
  unfold gen_issue_step genIssueBlock
  split_ifs <;> simp_all

theorem gen_col_step_eq (acc : List TestSpec) (col : ColumnProfile) :
    gen_col_step acc col = acc ++ genColBlock col := by
  unfold gen_col_step genColBlock
  split_ifs <;> simp

theorem generate_fallback_tests (p : TableProfile) (issues : List Issue) :
    (generate_fallback p issues).tests =
      issues.flatMap genIssueBlock ++ p.columns.flatMap genColBlock := by
  show p.columns.foldl gen_col_step (issues.foldl gen_issue_step []) = _
  rw [foldl_append_block gen_issue_step_eq, foldl_append_block gen_col_step_eq,
    List.nil_append]

/-! ## Helper lemmas: validation filter -/

theorem validate_step_eq (p : TableProfile) (acc : List TestSpec) (t : RawTest) :
    validate_step p acc t = acc ++ (keepCand p t).toList := by
  unfold validate_step keepCand
  cases hc : t.column with
  | none => cases hty : t.test_type <;> simp
  | some c =>
    cases hty : t.test_type with
    | none => simp
    | some ty =>
      by_cases h1 : c ∈ p.columns.map ColumnProfile.name <;>
        by_cases h2 : ty ∈ valid_test_types <;> simp [h1, h2]

theorem flatMap_option_toList {α β : Type} (f : α → Option β) (l : List α) :
    (l.flatMap fun x => (f x).toList) = l.filterMap f := by
  induction l with
  | nil => rfl
  | cons x xs ih => cases hfx : f x <;> simp [hfx, ih]

theorem validate_tests_eq_filterMap (tests : List RawTest) (p : TableProfile) :
    validate_tests tests p = tests.filterMap (keepCand p) := by
  rw [validate_tests, foldl_append_block (validate_step_eq p), List.nil_append,
    flatMap_option_toList]

/-! ## Helper lemmas: profiler counts -/

theorem nullCount_add_nonNull (cells : List (Option CellVal)) :
    nullCount cells + (nonNullVals cells).length = cells.length := by
  induction cells with
  | nil => rfl
  | cons c cs ih =>
    cases c with
    | none =>
      have e1 : nullCount (none :: cs) = nullCount cs + 1 := by
        simp [nullCount, List.filter_cons]
      have e2 : nonNullVals (none :: cs) = nonNullVals cs := by
        simp [nonNullVals, List.filterMap_cons]
      rw [e1, e2, List.length_cons]; omega
    | some v =>
      have e1 : nullCount (some v :: cs) = nullCount cs := by
        simp [nullCount, List.filter_cons]
      have e2 : nonNullVals (some v :: cs) = v :: nonNullVals cs := by
        simp [nonNullVals, List.filterMap_cons]
      rw [e1, e2, List.length_cons, List.length_cons]; omega

theorem nullCount_le_length (cells : List (Option CellVal)) :
    nullCount cells ≤ cells.length :=
  List.length_filter_le _ _

/-! ## Helper lemmas: serializer grouping -/

theorem tests_by_column_spec (ts : List TestSpec) :
    tests_by_column ts =
      (dedupFS (ts.map TestSpec.column)).map
        fun c => (c, ts.filter fun t => t.column == c) := by
  induction ts using List.reverseRecOn with
  | nil => rfl
  | append_singleton ts t ih =>
    have hstep : tests_by_column (ts ++ [t]) = insertTest (tests_by_column ts) t := by
      rw [tests_by_column, List.foldl_append, List.foldl_cons, List.foldl_nil]
      rfl
    rw [hstep, ih]
    simp only [List.map_append, List.map_cons, List.map_nil]
    rw [dedupFS_snoc, insertTest]
    by_cases hmem : t.column ∈ ts.map TestSpec.column
    · have hany : ((dedupFS (ts.map TestSpec.column)).map
          (fun c => (c, ts.filter fun x => x.column == c))).any
            (fun kv => kv.1 == t.column) = true := by
        rw [List.any_eq_true]
        exact ⟨(t.column, ts.filter fun x => x.column == t.column),
          List.mem_map_of_mem _ ((mem_dedupFS _).2 hmem), by simp⟩
      rw [if_pos hany, if_pos hmem, List.map_map]
      refine List.map_congr_left ?_
      intro c hc
      by_cases hceq : c = t.column
      · subst hceq
        simp only [Function.comp_apply, beq_self_eq_true, if_pos,
          List.filter_append]
        simp
      · have hne : (c == t.column) = false := by
          simp [hceq]
        have hcc : ¬t.column = c := fun h => hceq h.symm
        simp only [Function.comp_apply, hne, Bool.false_eq_true, if_false,
          List.filter_append]
        have hfil1 : (List.filter (fun x => x.column == c) [t]) = [] := by
          simp [List.filter_cons, hcc]
        rw [hfil1, List.append_nil]
    · have hany : ((dedupFS (ts.map TestSpec.column)).map
          (fun c => (c, ts.filter fun x => x.column == c))).any
            (fun kv => kv.1 == t.column) = false := by
        rw [List.any_eq_false]
        rintro kv hkv
        obtain ⟨c, hc, rfl⟩ := List.mem_map.1 hkv
        have hcmem : c ∈ ts.map TestSpec.column := (mem_dedupFS _).1 hc
        simp only [beq_iff_eq]
        exact fun hce => hmem (hce ▸ hcmem)
      rw [hany, if_neg hmem]
      simp only [Bool.false_eq_true, if_false]
      rw [List.map_append]
      congr 1
      · refine List.map_congr_left ?_
        intro c hc
        have hcmem : c ∈ ts.map TestSpec.column := (mem_dedupFS _).1 hc
        have hcne : c ≠ t.column := fun hce => hmem (hce ▸ hcmem)
        have hcc : ¬t.column = c := fun h => hcne h.symm
        rw [List.filter_append]
        have hfil2 : (List.filter (fun x => x.column == c) [t]) = [] := by
          simp [List.filter_cons, hcc]
        rw [hfil2, List.append_nil]
      · have hfil : (List.filter (fun x => x.column == t.column) ts) = [] := by
          rw [List.filter_eq_nil_iff]
          intro a ha
          simp only [beq_iff_eq]
          exact fun hac => hmem (hac ▸ List.mem_map_of_mem _ ha)
        simp [List.filter_append, hfil, List.filter_cons]

theorem serialize_spec (table_name : String) (ts : List TestSpec) :
    serialize table_name ts =
      { version := 2
        models := [{ name := table_name
                     columns := (dedupFS (ts.map TestSpec.column)).map fun c =>
                       { name := c
                         tests := (ts.filter fun t => t.column == c).map format_test }}] } := by
  rw [serialize, tests_by_column_spec, List.map_map]
  rfl

/-! ## Helper lemmas: the sample-variance radicand -/

theorem sum_nonneg_zero_iff (l : List ℚ) (h : ∀ x ∈ l, 0 ≤ x) :
    l.sum = 0 ↔ ∀ x ∈ l, x = 0 := by
  induction l with
  | nil => simp
  | cons x xs ih =>
    rw [List.sum_cons]
    have hx : 0 ≤ x := h x (List.mem_cons_self _ _)
    have hxs : 0 ≤ xs.sum :=
      List.sum_nonneg fun y hy => h y (List.mem_cons_of_mem _ hy)
    rw [add_eq_zero_iff_of_nonneg hx hxs,
      ih fun y hy => h y (List.mem_cons_of_mem _ hy)]
    simp [List.forall_mem_cons]

theorem sum_const_list (l : List ℚ) (c : ℚ) (h : ∀ x ∈ l, x = c) :
    l.sum = l.length * c := by
  induction l with
  | nil => simp
  | cons x xs ih =>
    rw [List.sum_cons, ih fun y hy => h y (List.mem_cons_of_mem _ hy),
      h x (List.mem_cons_self _ _), List.length_cons]
    push_cast
    ring

theorem listMean_of_const (l : List ℚ) (c : ℚ) (hl : l ≠ []) (h : ∀ x ∈ l, x = c) :
    listMean l = c := by
  rw [listMean, sum_const_list l c h]
  have hn : (l.length : ℚ) ≠ 0 :=
    Nat.cast_ne_zero.2 (List.length_pos.2 hl).ne'
  field_simp

theorem listVar_nonneg (l : List ℚ) : 0 ≤ listVar l := by
  rw [listVar]
  split_ifs with h
  · apply div_nonneg
    · refine List.sum_nonneg ?_
      intro x hx
      simp only [List.mem_map] at hx
      obtain ⟨y, _, rfl⟩ := hx
      positivity
    · have h2 : (1 : ℚ) ≤ (l.length : ℚ) := by exact_mod_cast h.le
      linarith
  · exact le_refl 0

theorem listVar_eq_zero_iff (l : List ℚ) :
    listVar l = 0 ↔ ∀ x ∈ l, ∀ y ∈ l, x = y := by
  rw [listVar]
  split_ifs with hlen
  · have hne : l ≠ [] := by
      intro h; rw [h] at hlen; simp at hlen
    have hcast : (l.length : ℚ) - 1 ≠ 0 := by
      have h2 : (2 : ℚ) ≤ (l.length : ℚ) := by exact_mod_cast hlen
      intro h0
      linarith
    rw [div_eq_zero_iff]
    constructor
    · rintro (hs | hs)
      · have hz : ∀ x ∈ l.map fun x => (x - listMean l) ^ 2, x = 0 := by
          refine (sum_nonneg_zero_iff _ ?_).1 hs
          intro x hx
          simp only [List.mem_map] at hx
          obtain ⟨y, _, rfl⟩ := hx
          positivity
        intro x hx y hy
        have hxm : (x - listMean l) ^ 2 = 0 := hz _ (List.mem_map_of_mem _ hx)
        have hym : (y - listMean l) ^ 2 = 0 := hz _ (List.mem_map_of_mem _ hy)
        have hx0 : x = listMean l := by
          have h2 := (pow_eq_zero_iff (two_ne_zero)).1 hxm
          linarith [sub_eq_zero.1 h2]
        have hy0 : y = listMean l := by
          have h2 := (pow_eq_zero_iff (two_ne_zero)).1 hym
          linarith [sub_eq_zero.1 h2]
        rw [hx0, hy0]
      · exact absurd hs hcast
    · intro hpair
      left
      obtain ⟨z, zs, rfl⟩ : ∃ z zs, l = z :: zs := by
        cases l with
        | nil => exact absurd rfl hne
        | cons z zs => exact ⟨z, zs, rfl⟩
      have hall : ∀ x ∈ z :: zs, x = z :=
        fun x hx => hpair x hx z (List.mem_cons_self _ _)
      have hmean : listMean (z :: zs) = z := listMean_of_const _ z (by simp) hall
      rw [sum_nonneg_zero_iff]
      · intro x hx
        simp only [List.mem_map] at hx
        obtain ⟨y, hy, rfl⟩ := hx
        rw [hmean, hall y hy]
        ring
      · intro x hx
        simp only [List.mem_map] at hx
        obtain ⟨y, _, rfl⟩ := hx
        positivity
  · constructor
    · intro _
      push_neg at hlen
      intro x hx y hy
      cases l with
      | nil => cases hx
      | cons z zs =>
        cases zs with
        | nil =>
          simp only [List.mem_singleton] at hx hy
          rw [hx, hy]
        | cons w ws => simp at hlen
    · intro _; rfl

/-! ## Claim C1: the fallback rule engine -/

/-- C1: for every profile, the deterministic fallback detector emits issues
per column in profile column order, applying the four independent checks in
the fixed order high null rate, non-unique id, constant column, negative
values — each firing if and only if its stated condition holds, with the
stated severity, priority and carried value (see `detectBlock` and the four
issue constructors) — and the two name heuristics match exactly the stated
indicator substrings of the lowercased column name. -/
theorem claim_C1_fallback_rule_engine (cfg : DetectorCfg) (p : TableProfile) :
    detect_fallback cfg p = p.columns.flatMap (detectBlock cfg) ∧
    (∀ n : String, is_id_column n = true ↔
      (listHasSub "_id".data (lowerChars n) = true ∨
       listHasSub "id_".data (lowerChars n) = true ∨
       listHasSub "identifier".data (lowerChars n) = true ∨
       listHasSub "key".data (lowerChars n) = true ∨
       lowerChars n = "id".data)) ∧
    (∀ n : String, is_amount_or_count_column n = true ↔
      (listHasSub "amount".data (lowerChars n) = true ∨
       listHasSub "price".data (lowerChars n) = true ∨
       listHasSub "cost".data (lowerChars n) = true ∨
       listHasSub "total".data (lowerChars n) = true ∨
       listHasSub "sum".data (lowerChars n) = true ∨
       listHasSub "count".data (lowerChars n) = true ∨
       listHasSub "quantity".data (lowerChars n) = true ∨
       listHasSub "qty".data (lowerChars n) = true ∨
       listHasSub "number".data (lowerChars n) = true ∨
       listHasSub "num".data (lowerChars n) = true)) := by
  refine ⟨detect_fallback_eq_flatMap cfg p, ?_, ?_⟩
  · intro n
    simp [is_id_column, List.any_cons, List.any_nil, Bool.or_eq_true,
      or_assoc]
  · intro n
    simp [is_amount_or_count_column, List.any_cons, List.any_nil,
      Bool.or_eq_true, or_assoc]

/-! ## Claim C8: detection on a `user_id` column that is 80 percent
distinct -/

theorem detect_filter_by_column (cfg : DetectorCfg) (cols : List ColumnProfile)
    (s : String) :
    (cols.flatMap (detectBlock cfg)).filter (fun i => i.column == s) =
      (cols.filter fun cp => cp.name == s).flatMap (detectBlock cfg) := by
  induction cols with
  | nil => rfl
  | cons cp cps ih =>
    rw [List.flatMap_cons, List.filter_append, ih, List.filter_cons]
    by_cases h : cp.name = s
    · have hall : (detectBlock cfg cp).filter (fun i => i.column == s) =
          detectBlock cfg cp := by
        rw [List.filter_eq_self]
        intro i hi
        simp [detectBlock_column cfg cp i hi, h]
      rw [hall]
      simp [h, List.flatMap_cons]
    · have hnone : (detectBlock cfg cp).filter (fun i => i.column == s) = [] := by
        rw [List.filter_eq_nil_iff]
        intro i hi
        simp [detectBlock_column cfg cp i hi, h]
      rw [hnone]
      simp [h]

/-- C8: on any well-formed table whose profile has exactly one column named
`user_id`, with `distinct_pct = 0.8`, deterministic detection with the
default thresholds yields exactly one issue for that column: a
`non_unique_id` issue with priority `CRITICAL` and value `0.8`. -/
theorem claim_C8_user_id_single_issue (t : SrcTable) (c : SrcColumn)
    (hwf : WFTable t)
    (huniq : t.cols.filter (fun col => col.name == "user_id") = [c])
    (hdp : (profile_column c t.nrows).distinct_pct = 4 / 5) :
    (detect_fallback defaultCfg (profile t)).filter
        (fun i => i.column == "user_id") =
      [{ column := "user_id", issue_type := "non_unique_id",
         severity := "error", priority := "CRITICAL", value := 4 / 5 }] := by
  have hcmem : c ∈ t.cols.filter (fun col => col.name == "user_id") := by
    rw [huniq]; exact List.mem_singleton_self c
  obtain ⟨hcin, hcname⟩ := List.mem_filter.1 hcmem
  have hcname' : c.name = "user_id" := by simpa using hcname
  -- reduce to the single matching column
  rw [detect_fallback_eq_flatMap, profile]
  have hfilmap : (List.filter (fun cp => cp.name == "user_id")
      (t.cols.map fun col => profile_column col t.nrows)) =
      (t.cols.filter (fun col => col.name == "user_id")).map
        fun col => profile_column col t.nrows := by
    rw [List.filter_map]
    rfl
  rw [detect_filter_by_column, hfilmap, huniq, List.map_cons, List.map_nil,
    List.flatMap_cons, List.flatMap_nil, List.append_nil]
  -- facts about the single column
  have hrows : 0 < t.nrows := by
    rcases Nat.eq_zero_or_pos t.nrows with h0 | h
    · rw [h0] at hdp
      norm_num [profile_column] at hdp
    · exact h
  have hnrq : (t.nrows : ℚ) ≠ 0 := Nat.cast_ne_zero.2 hrows.ne'
  have hdp2 : (((profile_column c t.nrows).distinct_count : ℚ)) / (t.nrows : ℚ) =
      4 / 5 := by
    rw [← hdp]
    simp [profile_column, if_pos hrows]
  have hnat : (profile_column c t.nrows).distinct_count * 5 = 4 * t.nrows := by
    field_simp at hdp2
    exact_mod_cast hdp2
  have hlen : c.cells.length = t.nrows := (hwf c hcin).1
  have hnn : nullCount c.cells + (nonNullVals c.cells).length = t.nrows := by
    rw [nullCount_add_nonNull, hlen]
  have hdle : (profile_column c t.nrows).distinct_count ≤
      (nonNullVals c.cells).length := by
    show (dedupFS (nonNullVals c.cells)).length ≤ _
    exact length_dedupFS_le _
  have hnc5 : 5 * nullCount c.cells ≤ t.nrows := by omega
  have hnullpct : (profile_column c t.nrows).null_pct =
      ((nullCount c.cells : ℚ)) / (t.nrows : ℚ) := by
    simp [profile_column, if_pos hrows]
  have hnp_le : ¬ (defaultCfg.high_null_threshold <
      (profile_column c t.nrows).null_pct) := by
    rw [hnullpct]
    show ¬ ((3 : ℚ) / 10 < _)
    rw [not_lt, div_le_div_iff₀ (by exact_mod_cast hrows) (by norm_num)]
    have h10 : (5 * nullCount c.cells : ℚ) ≤ (t.nrows : ℚ) := by
      exact_mod_cast hnc5
    linarith
  have hdcge : ¬ ((profile_column c t.nrows).distinct_count ≤
      defaultCfg.constant_threshold) := by
    show ¬ (_ ≤ 1)
    omega
  have hid : is_id_column (profile_column c t.nrows).name = true := by
    have h : is_id_column c.name = true := by rw [hcname']; decide
    exact h
  have hamf : ¬ (is_amount_or_count_column (profile_column c t.nrows).name = true) := by
    intro hcontra
    have h' : is_amount_or_count_column c.name = true := hcontra
    rw [hcname'] at h'
    exact absurd h' (by decide)
  have hlt1 : (profile_column c t.nrows).distinct_pct <
      defaultCfg.id_uniqueness_threshold := by
    rw [hdp]
    show (4 : ℚ) / 5 < 1
    norm_num
  rw [detectBlock, if_neg hnp_le, if_pos hid, if_pos hlt1, if_neg hdcge,
    if_neg hamf]
  simp only [List.nil_append, List.append_nil]
  rw [nonUniqueIdIssue,
    show (profile_column c t.nrows).name = "user_id" from hcname',
    show (profile_column c t.nrows).distinct_pct = 4 / 5 from hdp]

/-! ## Claim C9: an all-null column fires both the high-null and the
constant-column checks -/

/-- C9: in a well-formed table with at least one row, a column whose cells
are all null is profiled with `distinct_count = 0` and `null_pct = 1`, and
the deterministic fallback detector emits both a `high_null_rate` issue and
a `constant_column` issue for it — the constant check fires at
`distinct_count = 0` because its condition is `distinct_count ≤ 1`. -/
theorem claim_C9_all_null_column (t : SrcTable) (c : SrcColumn)
    (hwf : WFTable t) (hc : c ∈ t.cols) (hrows : 0 < t.nrows)
    (hnull : ∀ v ∈ c.cells, v = none) :
    (profile_column c t.nrows).distinct_count = 0 ∧
    (profile_column c t.nrows).null_pct = 1 ∧
    highNullIssue (profile_column c t.nrows) ∈
      detect_fallback defaultCfg (profile t) ∧
    constantColumnIssue (profile_column c t.nrows) ∈
      detect_fallback defaultCfg (profile t) := by
  have hlen : c.cells.length = t.nrows := (hwf c hc).1
  have hnnv : nonNullVals c.cells = [] := by
    rw [nonNullVals, List.filterMap_eq_nil_iff]
    intro v hv
    rw [hnull v hv]
    rfl
  have hncnt : nullCount c.cells = t.nrows := by
    have := nullCount_add_nonNull c.cells
    rw [hnnv] at this
    simpa [hlen] using this
  set cp := profile_column c t.nrows with hcp
  have hdc : cp.distinct_count = 0 := by
    rw [hcp]
    simp only [profile_column, hnnv]
    rfl
  have hnp : cp.null_pct = 1 := by
    rw [hcp]
    simp only [profile_column, if_pos hrows, hncnt]
    exact div_self (Nat.cast_ne_zero.2 hrows.ne')
  refine ⟨hdc, hnp, ?_, ?_⟩
  · rw [detect_fallback_eq_flatMap]
    refine List.mem_flatMap.2 ⟨cp, ?_, ?_⟩
    · rw [profile]
      exact List.mem_map_of_mem _ hc
    · rw [detectBlock]
      refine List.mem_append_left _ (List.mem_append_left _
        (List.mem_append_left _ ?_))
      rw [if_pos (show defaultCfg.high_null_threshold < cp.null_pct by
        rw [hnp]; norm_num [defaultCfg])]
      exact List.mem_singleton_self _
  · rw [detect_fallback_eq_flatMap]
    refine List.mem_flatMap.2 ⟨cp, ?_, ?_⟩
    · rw [profile]
      exact List.mem_map_of_mem _ hc
    · rw [detectBlock]
      refine List.mem_append_left _ (List.mem_append_right _ ?_)
      rw [if_pos (show cp.distinct_count ≤ defaultCfg.constant_threshold by
        rw [hdc]; norm_num [defaultCfg])]
      exact List.mem_singleton_self _

/-- C8 witness: the concrete five-row table whose `user_id` column holds
1, 2, 3, 4, 4 (80 percent distinct). -/
theorem claim_C8_witness :
    (detect_fallback defaultCfg (profile tUserId)).filter
        (fun i => i.column == "user_id") =
      [{ column := "user_id", issue_type := "non_unique_id",
         severity := "error", priority := "CRITICAL", value := 4 / 5 }] :=
  claim_C8_user_id_single_issue tUserId colUserId (by decide) (by rfl)
    (by norm_num [tUserId, colUserId, profile_column, nonNullVals, dedupFS,
      dedupFSAux, nullCount, List.filterMap_cons])

/-- C9 witness: the concrete one-row table with an all-null column. -/
theorem claim_C9_witness :
    (profile_column colAllNull tAllNull.nrows).distinct_count = 0 ∧
    (profile_column colAllNull tAllNull.nrows).null_pct = 1 ∧
    highNullIssue (profile_column colAllNull tAllNull.nrows) ∈
      detect_fallback defaultCfg (profile tAllNull) ∧
    constantColumnIssue (profile_column colAllNull tAllNull.nrows) ∈
      detect_fallback defaultCfg (profile tAllNull) :=
  claim_C9_all_null_column tAllNull colAllNull (by decide)
    (List.mem_singleton_self _) (by decide) (by decide)

/-! ## Claim C2: backend failure handling (corrected) -/

/-- C2 (amended): when the generative call raises, or the response is not a
JSON object (`LLMDetect.err` / `LLMGen.err`), or no client is configured,
both agents return the deterministic fallback's result immediately, with no
retry path in the model; when a parsed JSON object carries the relevant
entry, it is returned (detector: verbatim; generator: validated); but a
well-formed JSON object that lacks the required entry is NOT treated as a
failure: the detector returns the empty issue list and the generator
returns the default description with an empty validated test list,
bypassing the fallback. -/
theorem claim_C2_failure_fallback (cfg : DetectorCfg) (p : TableProfile)
    (issues : List Issue) :
    detect cfg (some LLMDetect.err) p = detect_fallback cfg p ∧
    detect cfg none p = detect_fallback cfg p ∧
    (∀ is, detect cfg (some (LLMDetect.parsed (some is))) p = is) ∧
    detect cfg (some (LLMDetect.parsed none)) p = [] ∧
    generate (some LLMGen.err) p issues = generate_fallback p issues ∧
    generate none p issues = generate_fallback p issues ∧
    (∀ d ts, generate (some (LLMGen.parsed (some d) (some ts))) p issues =
      { description := d, tests := validate_tests ts p }) ∧
    generate (some (LLMGen.parsed none none)) p issues =
      { description := "LLM-generated test suggestions", tests := [] } :=
  ⟨rfl, rfl, fun _ => rfl, rfl, rfl, rfl, fun _ _ => rfl, rfl⟩

/-- C2 counterexample: on a profile whose fallback detection is non-empty,
a well-formed JSON object response lacking the `issues` entry makes
`detect` return the empty list — not the fallback result, contradicting
the claim that a missing required key falls through to the fallback.
Likewise the generator returns the default description, not the
fallback's. -/
theorem claim_C2_counterexample :
    detect defaultCfg (some (LLMDetect.parsed none)) pConst = [] ∧
    detect_fallback defaultCfg pConst = [constantColumnIssue cpConst] ∧
    detect defaultCfg (some (LLMDetect.parsed none)) pConst ≠
      detect_fallback defaultCfg pConst ∧
    generate (some (LLMGen.parsed none none)) pConst [] ≠
      generate_fallback pConst [] := by
  have hid : is_id_column "c" = false := by decide
  have ham : is_amount_or_count_column "c" = false := by decide
  have hfb : detect_fallback defaultCfg pConst = [constantColumnIssue cpConst] := by
    rw [detect_fallback_eq_flatMap]
    show ([cpConst].flatMap (detectBlock defaultCfg)) = _
    rw [List.flatMap_cons, List.flatMap_nil, List.append_nil, detectBlock]
    norm_num [cpConst, defaultCfg, hid, ham]
  refine ⟨rfl, hfb, ?_, ?_⟩
  · rw [hfb]
    show ([] : List Issue) ≠ [constantColumnIssue cpConst]
    exact fun hcontra => List.cons_ne_nil _ _ hcontra.symm
  · intro hcontra
    have : ("LLM-generated test suggestions" : String) =
        "Rule-based test suggestions (LLM unavailable)" :=
      congrArg GenResult.description hcontra
    exact absurd this (by decide)

/-! ## Claim C3: the deterministic fallback test generator -/

/-- C3: the fallback generator returns exactly one `unique` test with empty
config per `non_unique_id` issue (issues of other types, in particular
`high_null_rate`, yield no test from that pass), plus one `not_null` test
with empty config per column with `null_pct < 0.05`, with no deduplication
and the fixed fallback description; on a single-column profile with
`null_pct = 0.02` and no issues it yields exactly that column's `not_null`
test. -/
theorem claim_C3_generate_fallback (p : TableProfile) (issues : List Issue)
    (p1 : TableProfile) (cp : ColumnProfile)
    (hcols : p1.columns = [cp]) (hnp : cp.null_pct = 1 / 50) :
    generate_fallback p issues =
      { description := "Rule-based test suggestions (LLM unavailable)"
        tests := issues.flatMap genIssueBlock ++ p.columns.flatMap genColBlock } ∧
    generate_fallback p1 [] =
      { description := "Rule-based test suggestions (LLM unavailable)"
        tests := [{ column := cp.name, test_type := "not_null", config := [] }] } := by
  constructor
  · have h := generate_fallback_tests p issues
    calc generate_fallback p issues
        = { description := (generate_fallback p issues).description
            tests := (generate_fallback p issues).tests } := rfl
      _ = _ := by rw [h]; rfl
  · have h := generate_fallback_tests p1 []
    rw [hcols] at h
    simp only [List.flatMap_nil, List.flatMap_cons, List.nil_append,
      List.append_nil] at h
    have hg : genColBlock cp =
        [{ column := cp.name, test_type := "not_null", config := [] }] := by
      rw [genColBlock, if_pos]
      rw [hnp]
      norm_num
    calc generate_fallback p1 []
        = { description := (generate_fallback p1 []).description
            tests := (generate_fallback p1 []).tests } := rfl
      _ = _ := by rw [h, hg]; rfl

/-- C3 witness: the concrete single-column profile with `null_pct = 0.02`. -/
theorem claim_C3_witness :
    generate_fallback pLowNull [] =
      { description := "Rule-based test suggestions (LLM unavailable)"
        tests := [{ column := cpLowNull.name, test_type := "not_null",
                    config := [] }] } :=
  (claim_C3_generate_fallback pLowNull [] pLowNull cpLowNull rfl rfl).2

/-! ## Claim C4: the validation filter -/

/-- C4: the validation filter keeps exactly the candidates with both a
column and a test type, whose column names an existing profile column and
whose test type lies in the closed allowed set; a kept candidate lacking a
config receives the empty mapping; the output is the order-preserving
`filterMap` of the per-candidate decision, and dropping one candidate does
not affect the others. -/
theorem claim_C4_validation_filter (tests : List RawTest) (p : TableProfile)
    (ts1 ts2 : List RawTest) (t : RawTest) (hdrop : keepCand p t = none) :
    validate_tests tests p = tests.filterMap (keepCand p) ∧
    (∀ t' : RawTest, ∀ c ty, t'.column = some c → t'.test_type = some ty →
      c ∈ p.columns.map ColumnProfile.name → ty ∈ valid_test_types →
      keepCand p t' =
        some { column := c, test_type := ty, config := t'.config.getD [] }) ∧
    (∀ t' : RawTest, (t'.column = none ∨ t'.test_type = none ∨
      (∀ c, t'.column = some c → c ∉ p.columns.map ColumnProfile.name) ∨
      (∀ ty, t'.test_type = some ty → ty ∉ valid_test_types)) →
      keepCand p t' = none) ∧
    validate_tests (ts1 ++ t :: ts2) p = validate_tests (ts1 ++ ts2) p := by
  refine ⟨validate_tests_eq_filterMap tests p, ?_, ?_, ?_⟩
  · intro t' c ty hc hty hcol htyp
    simp [keepCand, hc, hty, hcol, htyp]
  · intro t' hbad
    rcases hcol : t'.column with _ | c
    · simp [keepCand, hcol]
    rcases htyp : t'.test_type with _ | ty
    · simp [keepCand, hcol, htyp]
    rcases hbad with h | h | h | h
    · rw [hcol] at h; cases h
    · rw [htyp] at h; cases h
    · have := h c hcol
      simp [keepCand, hcol, htyp, this]
    · have := h ty htyp
      simp [keepCand, hcol, htyp, this]
  · rw [validate_tests_eq_filterMap, validate_tests_eq_filterMap,
      List.filterMap_append, List.filterMap_append,
      List.filterMap_cons_none hdrop]

/-- C4 witness: a kept candidate (receiving the empty config), a candidate
naming an absent column, and a candidate with a disallowed test type, in a
single run of the filter. -/
theorem claim_C4_witness :
    validate_tests [rawKeep, rawBadCol, rawBadType] pConst =
      [{ column := "c", test_type := "not_null", config := [] }] := by
  have h := (claim_C4_validation_filter [rawKeep, rawBadCol, rawBadType]
    pConst [] [] rawBadCol (by decide)).1
  rw [h]
  decide

/-! ## Claim C5: the serializer -/

/-- C5: serialization groups tests by column in first-seen order from the
tests sequence, keeps each column's tests in their original relative
order, renders an empty-config test as the bare test-type string and a
non-empty-config test as the single-entry mapping, and wraps everything in
a version-2 document with a single model named after the table; in
particular two empty-config tests `unique` then `not_null` on `id`
serialize to one `id` group with the two bare strings in that order. -/
theorem claim_C5_serializer (table_name : String) (ts : List TestSpec) :
    serialize table_name ts =
      { version := 2
        models := [{ name := table_name
                     columns := (dedupFS (ts.map TestSpec.column)).map fun c =>
                       { name := c
                         tests := (ts.filter fun t => t.column == c).map
                           format_test } }] } ∧
    (∀ t : TestSpec, t.config = [] → format_test t = YamlTest.bare t.test_type) ∧
    (∀ t : TestSpec, t.config ≠ [] →
      format_test t = YamlTest.withConfig t.test_type t.config) ∧
    serialize "tbl" [{ column := "id", test_type := "unique", config := [] },
                     { column := "id", test_type := "not_null", config := [] }] =
      { version := 2
        models := [{ name := "tbl"
                     columns := [{ name := "id"
                                   tests := [YamlTest.bare "unique",
                                             YamlTest.bare "not_null"] }] }] } := by
  refine ⟨serialize_spec table_name ts, ?_, ?_, ?_⟩
  · intro t h
    rw [format_test, if_pos h]
  · intro t h
    rw [format_test, if_neg h]
  · decide

/-- C5 witness: the two rendering modes of a single test. -/
theorem claim_C5_witness :
    format_test { column := "a", test_type := "unique", config := [] } =
      YamlTest.bare "unique" ∧
    format_test { column := "a", test_type := "accepted_values",
                  config := [("values", "x")] } =
      YamlTest.withConfig "accepted_values" [("values", "x")] :=
  ⟨(claim_C5_serializer "t" []).2.1 _ rfl,
   (claim_C5_serializer "t" []).2.2.1 _ (by decide)⟩

/-! ## Claim C6: profiler column invariants -/

/-- C6: for every well-formed table and every column, `null_count ≤
row_count`; `null_pct` is `null_count / row_count` (0 on an empty table);
`distinct_pct` is `distinct_count / row_count` (0 on an empty table); and
`example_values` lists distinct non-null values in first-seen row order:
it is a duplicate-free sublist of the non-null values whose length is the
minimum of 5 and the number of distinct non-null values, its entries are
strictly increasing in the index of their first occurrence among the
non-null values, and every distinct non-null value it omits first occurs
strictly later than every value it lists. -/
theorem claim_C6_profiler_invariants (t : SrcTable) (c : SrcColumn)
    (hwf : WFTable t) (hc : c ∈ t.cols) :
    (profile_column c t.nrows).null_count ≤ (profile t).row_count ∧
    (t.nrows = 0 → (profile_column c t.nrows).null_pct = 0) ∧
    (0 < t.nrows → (profile_column c t.nrows).null_pct =
      ((profile_column c t.nrows).null_count : ℚ) / ((profile t).row_count : ℚ)) ∧
    (t.nrows = 0 → (profile_column c t.nrows).distinct_pct = 0) ∧
    (0 < t.nrows → (profile_column c t.nrows).distinct_pct =
      ((profile_column c t.nrows).distinct_count : ℚ) /
        ((profile t).row_count : ℚ)) ∧
    (profile_column c t.nrows).example_values.length =
      min 5 (nonNullVals c.cells).toFinset.card ∧
    (profile_column c t.nrows).example_values.Sublist (nonNullVals c.cells) ∧
    (profile_column c t.nrows).example_values.Nodup ∧
    (profile_column c t.nrows).example_values.Pairwise
      (fun x y => List.indexOf x (nonNullVals c.cells) <
        List.indexOf y (nonNullVals c.cells)) ∧
    (∀ v ∈ nonNullVals c.cells,
      v ∉ (profile_column c t.nrows).example_values →
      ∀ x ∈ (profile_column c t.nrows).example_values,
        List.indexOf x (nonNullVals c.cells) <
          List.indexOf v (nonNullVals c.cells)) := by
  have hlen : c.cells.length = t.nrows := (hwf c hc).1
  refine ⟨?_, ?_, ?_, ?_, ?_, ?_, ?_, ?_, ?_, ?_⟩
  · show nullCount c.cells ≤ t.nrows
    rw [← hlen]
    exact nullCount_le_length c.cells
  · intro h0
    simp [profile_column, h0]
  · intro hpos
    simp [profile_column, profile, if_pos hpos]
  · intro h0
    simp [profile_column, h0]
  · intro hpos
    simp [profile_column, profile, if_pos hpos]
  · show ((dedupFS (nonNullVals c.cells)).take 5).length = _
    rw [List.length_take, length_dedupFS_eq_card]
  · exact (List.take_sublist _ _).trans (sublist_dedupFS _)
  · exact (nodup_dedupFS _).sublist (List.take_sublist _ _)
  · exact List.Pairwise.sublist (List.take_sublist _ _)
      (dedupFS_pairwise_indexOf (nonNullVals c.cells))
  · intro v hv hvnot x hx
    have hvd : v ∈ dedupFS (nonNullVals c.cells) := (mem_dedupFS _).2 hv
    have hsplit := dedupFS_pairwise_indexOf (nonNullVals c.cells)
    rw [← List.take_append_drop 5 (dedupFS (nonNullVals c.cells))] at hsplit hvd
    rcases List.mem_append.1 hvd with h | h
    · exact absurd h hvnot
    · exact (List.pairwise_append.1 hsplit).2.2 x hx v h

/-- C6 witness: the concrete three-row table with a value, a null and a
repeated value. -/
theorem claim_C6_witness :
    (profile_column colMixed tMixed.nrows).null_count ≤ (profile tMixed).row_count ∧
    (tMixed.nrows = 0 → (profile_column colMixed tMixed.nrows).null_pct = 0) ∧
    (0 < tMixed.nrows → (profile_column colMixed tMixed.nrows).null_pct =
      ((profile_column colMixed tMixed.nrows).null_count : ℚ) /
        ((profile tMixed).row_count : ℚ)) ∧
    (tMixed.nrows = 0 → (profile_column colMixed tMixed.nrows).distinct_pct = 0) ∧
    (0 < tMixed.nrows → (profile_column colMixed tMixed.nrows).distinct_pct =
      ((profile_column colMixed tMixed.nrows).distinct_count : ℚ) /
        ((profile tMixed).row_count : ℚ)) ∧
    (profile_column colMixed tMixed.nrows).example_values.length =
      min 5 (nonNullVals colMixed.cells).toFinset.card ∧
    (profile_column colMixed tMixed.nrows).example_values.Sublist
      (nonNullVals colMixed.cells) ∧
    (profile_column colMixed tMixed.nrows).example_values.Nodup ∧
    (profile_column colMixed tMixed.nrows).example_values.Pairwise
      (fun x y => List.indexOf x (nonNullVals colMixed.cells) <
        List.indexOf y (nonNullVals colMixed.cells)) ∧
    (∀ v ∈ nonNullVals colMixed.cells,
      v ∉ (profile_column colMixed tMixed.nrows).example_values →
      ∀ x ∈ (profile_column colMixed tMixed.nrows).example_values,
        List.indexOf x (nonNullVals colMixed.cells) <
          List.indexOf v (nonNullVals colMixed.cells)) :=
  claim_C6_profiler_invariants tMixed colMixed (by decide)
    (List.mem_singleton_self _)

/-! ## Claim C7: the numeric block and the zero-std condition
(corrected) -/

/-- C7 counterexample: the numeric column holding 5 twice has its numeric
block present with a zero standard deviation (the stored std is `√var`
with `var = 0`) even though it has two non-null values, refuting "std = 0
exactly when precisely one non-null value exists". -/
theorem claim_C7_counterexample :
    (profile_column colConst5 tConst5.nrows).numeric_block =
      some { min := 5, max := 5, mean := 5, median := 5, var := 0 } ∧
    Real.sqrt ((0 : ℚ) : ℝ) = 0 ∧
    (nonNullVals colConst5.cells).length = 2 := by
  refine ⟨?_, by simp, by decide⟩
  norm_num [colConst5, tConst5, profile_column, nonNullVals, numVals, mkStats,
    listMin, listMax, listMean, listMedian, listVar, sortRats, insertSorted,
    List.filterMap_cons]

/-- C7 (amended): for every well-formed table and column, the numeric block
is present if and only if the column's declared type is numeric and at
least one non-null value exists; the stored standard deviation `√var` is
zero exactly when all of the column's non-null numeric values are equal —
in particular (but not only) when precisely one non-null value exists. -/
theorem claim_C7_numeric_block_and_std (t : SrcTable) (c : SrcColumn)
    (hwf : WFTable t) (hc : c ∈ t.cols) :
    ((profile_column c t.nrows).numeric_block.isSome ↔
      (c.numeric = true ∧ nonNullVals c.cells ≠ [])) ∧
    (∀ s : NumericStats, (profile_column c t.nrows).numeric_block = some s →
      (Real.sqrt (s.var : ℝ) = 0 ↔
        ∀ x ∈ numVals c.cells, ∀ y ∈ numVals c.cells, x = y)) ∧
    (∀ s : NumericStats, (profile_column c t.nrows).numeric_block = some s →
      (numVals c.cells).length = 1 → Real.sqrt (s.var : ℝ) = 0) := by
  have hblock : (profile_column c t.nrows).numeric_block =
      if c.numeric = true ∧ 0 < (nonNullVals c.cells).length then
        some (mkStats (numVals c.cells)) else none := rfl
  have hiff : (profile_column c t.nrows).numeric_block.isSome ↔
      (c.numeric = true ∧ nonNullVals c.cells ≠ []) := by
    rw [hblock]
    split_ifs with h
    · simp only [Option.isSome_some, true_iff]
      exact ⟨h.1, List.length_pos.1 h.2⟩
    · simp only [Option.isSome_none, Bool.false_eq_true, false_iff]
      intro hcontra
      exact h ⟨hcontra.1, List.length_pos.2 hcontra.2⟩
  have hvar : ∀ s : NumericStats,
      (profile_column c t.nrows).numeric_block = some s →
      s.var = listVar (numVals c.cells) := by
    intro s hs
    rw [hblock] at hs
    split_ifs at hs with h
    have hsv := Option.some_inj.1 hs
    rw [← hsv]
    rfl
  refine ⟨hiff, ?_, ?_⟩
  · intro s hs
    rw [hvar s hs]
    have hnn : (0 : ℝ) ≤ ((listVar (numVals c.cells) : ℚ) : ℝ) := by
      exact_mod_cast listVar_nonneg _
    rw [Real.sqrt_eq_zero hnn]
    rw [show (((listVar (numVals c.cells) : ℚ) : ℝ) = 0) ↔
        listVar (numVals c.cells) = 0 by exact_mod_cast Iff.rfl]
    exact listVar_eq_zero_iff _
  · intro s hs hone
    rw [hvar s hs]
    rcases hl : numVals c.cells with _ | ⟨x, xs⟩
    · simp [hl, listVar, listMean]
    · have : xs = [] := by
        rw [hl] at hone
        simpa using hone
      subst this
      simp [hl, listVar]

/-- C7 witness (for the amended claim): the two-valued numeric column. -/
theorem claim_C7_witness :
    (profile_column colTwoVals tTwoVals.nrows).numeric_block.isSome ↔
      (colTwoVals.numeric = true ∧ nonNullVals colTwoVals.cells ≠ []) :=
  (claim_C7_numeric_block_and_std tTwoVals colTwoVals (by decide)
    (List.mem_singleton_self _)).1

/-! ## Claim C10: ordering of the fallback generator's output under
serialization -/

theorem mem_of_getElem?_some {α : Type} {l : List α} {n : Nat} {a : α}
    (h : l[n]? = some a) : a ∈ l := by
  have h2 : l.get? n = some a := by rw [List.get?_eq_getElem?]; exact h
  exact List.get?_mem h2

theorem genIssueBlock_mem {issue : Issue} {x : TestSpec}
    (hx : x ∈ genIssueBlock issue) :
    x.test_type = "unique" ∧ x.column = issue.column := by
  rw [genIssueBlock] at hx
  by_cases h : (issue.issue_type == "non_unique_id") = true
  · rw [if_pos h] at hx
    obtain rfl := List.mem_singleton.1 hx
    exact ⟨rfl, rfl⟩
  · rw [if_neg h] at hx
    cases hx

theorem genColBlock_mem {col : ColumnProfile} {x : TestSpec}
    (hx : x ∈ genColBlock col) :
    x.test_type = "not_null" ∧ x.column = col.name := by
  rw [genColBlock] at hx
  by_cases h : col.null_pct < 1 / 20
  · rw [if_pos h] at hx
    obtain rfl := List.mem_singleton.1 hx
    exact ⟨rfl, rfl⟩
  · rw [if_neg h] at hx
    cases hx

theorem mem_issuePass_unique {issues : List Issue} {x : TestSpec}
    (hx : x ∈ issues.flatMap genIssueBlock) : x.test_type = "unique" := by
  obtain ⟨i, _, hxi⟩ := List.mem_flatMap.1 hx
  exact (genIssueBlock_mem hxi).1

theorem mem_colPass_notnull {cols : List ColumnProfile} {x : TestSpec}
    (hx : x ∈ cols.flatMap genColBlock) : x.test_type = "not_null" := by
  obtain ⟨cp, _, hxc⟩ := List.mem_flatMap.1 hx
  exact (genColBlock_mem hxc).1

/-- C10: in the fallback generator's output, every issue-derived `unique`
test precedes every `not_null` test (the tests list is exactly the unique
pass in issue order followed by the not-null pass in profile column
order), and in the serialized document's group order any column that
received a `unique` test appears strictly before any column all of whose
tests are `not_null`. -/
theorem claim_C10_fallback_ordering (p : TableProfile) (issues : List Issue)
    (tn : String) :
    (generate_fallback p issues).tests =
      issues.flatMap genIssueBlock ++ p.columns.flatMap genColBlock ∧
    (∀ i j : Nat, ∀ t₁ t₂ : TestSpec,
      ((generate_fallback p issues).tests)[i]? = some t₁ →
      t₁.test_type = "unique" →
      ((generate_fallback p issues).tests)[j]? = some t₂ →
      t₂.test_type = "not_null" → i < j) ∧
    (∀ c₁ c₂ : String, ∀ i j : Nat,
      (∃ t ∈ (generate_fallback p issues).tests,
        t.column = c₁ ∧ t.test_type = "unique") →
      (∀ t ∈ (generate_fallback p issues).tests,
        t.column = c₂ → t.test_type = "not_null") →
      (∃ t ∈ (generate_fallback p issues).tests, t.column = c₂) →
      ((serialize tn (generate_fallback p issues).tests).models.flatMap
        fun m => m.columns.map ColumnGroup.name)[i]? = some c₁ →
      ((serialize tn (generate_fallback p issues).tests).models.flatMap
        fun m => m.columns.map ColumnGroup.name)[j]? = some c₂ →
      i < j) := by
  have hts := generate_fallback_tests p issues
  refine ⟨hts, ?_, ?_⟩
  · intro i j t₁ t₂ h1 ht1 h2 ht2
    rw [hts] at h1 h2
    rcases lt_or_ge i (issues.flatMap genIssueBlock).length with hi | hi
    · rcases lt_or_ge j (issues.flatMap genIssueBlock).length with hj | hj
      · rw [List.getElem?_append_left hj] at h2
        have hmem := mem_of_getElem?_some h2
        have := mem_issuePass_unique hmem
        rw [ht2] at this
        exact absurd this (by decide)
      · omega
    · rw [List.getElem?_append_right hi] at h1
      have hmem := mem_of_getElem?_some h1
      have := mem_colPass_notnull hmem
      rw [ht1] at this
      exact absurd this (by decide)
  · intro c₁ c₂ i j hexu hallnn hexc hg1 hg2
    have hG : ((serialize tn (generate_fallback p issues).tests).models.flatMap
        fun m => m.columns.map ColumnGroup.name) =
        dedupFS ((generate_fallback p issues).tests.map TestSpec.column) := by
      rw [serialize_spec]
      simp only [List.flatMap_cons, List.flatMap_nil, List.append_nil,
        List.map_map]
      refine (List.map_congr_left ?_).trans (List.map_id _)
      intro c _
      rfl
    rw [hG, hts, List.map_append, dedupFS_append] at hg1 hg2
    have hAm : c₁ ∈ (issues.flatMap genIssueBlock).map TestSpec.column := by
      obtain ⟨t, htmem, htc, htu⟩ := hexu
      rw [hts] at htmem
      rcases List.mem_append.1 htmem with hA | hB
      · rw [← htc]
        exact List.mem_map_of_mem _ hA
      · have := mem_colPass_notnull hB
        rw [htu] at this
        exact absurd this (by decide)
    have hBm : c₂ ∉ (issues.flatMap genIssueBlock).map TestSpec.column := by
      intro hmem
      obtain ⟨t, htA, htc⟩ := List.mem_map.1 hmem
      have htu := mem_issuePass_unique htA
      have htmem : t ∈ (generate_fallback p issues).tests := by
        rw [hts]
        exact List.mem_append_left _ htA
      have := hallnn t htmem htc
      rw [this] at htu
      exact absurd htu (by decide)
    have hc2 : c₂ ∈ (p.columns.flatMap genColBlock).map TestSpec.column := by
      obtain ⟨t, htmem, htc⟩ := hexc
      rw [hts] at htmem
      rcases List.mem_append.1 htmem with hA | hB
      · exact absurd (htc ▸ List.mem_map_of_mem _ hA) hBm
      · rw [← htc]
        exact List.mem_map_of_mem _ hB
    have hc1P : c₁ ∈ dedupFS ((issues.flatMap genIssueBlock).map TestSpec.column) :=
      (mem_dedupFS _).2 hAm
    have hc1Q : c₁ ∉ dedupFSAux ((issues.flatMap genIssueBlock).map TestSpec.column)
        ((p.columns.flatMap genColBlock).map TestSpec.column) := by
      intro hmem
      exact ((mem_dedupFSAux _ _).1 hmem).2 hAm
    have hc2P : c₂ ∉ dedupFS ((issues.flatMap genIssueBlock).map TestSpec.column) := by
      intro hmem
      exact hBm ((mem_dedupFS _).1 hmem)
    have hilt : i < (dedupFS ((issues.flatMap genIssueBlock).map
        TestSpec.column)).length := by
      by_contra hge
      push_neg at hge
      rw [List.getElem?_append_right hge] at hg1
      exact hc1Q (mem_of_getElem?_some hg1)
    have hjge : (dedupFS ((issues.flatMap genIssueBlock).map
        TestSpec.column)).length ≤ j := by
      by_contra hlt
      push_neg at hlt
      rw [List.getElem?_append_left hlt] at hg2
      exact hc2P (mem_of_getElem?_some hg2)
    omega

/-- C10 witness: one issue on column `b` of the two-column profile; the
serialized group order puts `b` (which received the unique test) before
`a` (which only received a not-null test). -/
theorem claim_C10_witness :
    (0 : Nat) < 1 ∧
    ((serialize "t" (generate_fallback pOrd [issueOrdB]).tests).models.flatMap
      fun m => m.columns.map ColumnGroup.name)[0]? = some "b" ∧
    ((serialize "t" (generate_fallback pOrd [issueOrdB]).tests).models.flatMap
      fun m => m.columns.map ColumnGroup.name)[1]? = some "a" := by
  have hts : (generate_fallback pOrd [issueOrdB]).tests =
      [{ column := "b", test_type := "unique", config := [] },
       { column := "a", test_type := "not_null", config := [] },
       { column := "b", test_type := "not_null", config := [] }] := by
    rw [generate_fallback_tests]
    norm_num [pOrd, cpOrdA, cpOrdB, issueOrdB, genIssueBlock, genColBlock]
  have hg1 : ((serialize "t" (generate_fallback pOrd [issueOrdB]).tests).models.flatMap
      fun m => m.columns.map ColumnGroup.name)[0]? = some "b" := by
    rw [hts]; decide
  have hg2 : ((serialize "t" (generate_fallback pOrd [issueOrdB]).tests).models.flatMap
      fun m => m.columns.map ColumnGroup.name)[1]? = some "a" := by
    rw [hts]; decide
  have hexu : ∃ t ∈ (generate_fallback pOrd [issueOrdB]).tests,
      t.column = "b" ∧ t.test_type = "unique" := by
    rw [hts]; decide
  have hall : ∀ t ∈ (generate_fallback pOrd [issueOrdB]).tests,
      t.column = "a" → t.test_type = "not_null" := by
    rw [hts]; decide
  have hexa : ∃ t ∈ (generate_fallback pOrd [issueOrdB]).tests,
      t.column = "a" := by
    rw [hts]; decide
  exact ⟨(claim_C10_fallback_ordering pOrd [issueOrdB] "t").2.2 "b" "a" 0 1
    hexu hall hexa hg1 hg2, hg1, hg2⟩
